import Mathlib

/-!
Shallow embedding of the crudeRedux store library (src/crudeRedux.js).

JavaScript values are modelled by the inductive `JSValue`. Numbers are
modelled as integers (the repository never produces fractional numbers or
NaN in the code paths the claims exercise). Objects are modelled
structurally: two structurally equal objects are identified. Where the
question is whether a function returns its argument object or a freshly
allocated one, the result type makes the distinction explicit instead
(see `CombineResult`). The store closure state (currentState,
currentListeners, nextListeners, the per-subscription isSubscribed flags)
is passed explicitly as a `World` record, and array identity between
`currentListeners` and `nextListeners` is tracked by the boolean
`sameArr`, which is what `nextListeners === currentListeners` evaluates
to in the source.
-/

mutual

/-- A JavaScript value, restricted to the shapes crudeRedux manipulates.
Functions are carried as opaque identifiers: the library only ever tests
them with `typeof`, stores them, and calls them. -/
inductive JSValue where
  | vUndefined : JSValue
  | vNull : JSValue
  | vBool : Bool → JSValue
  | vNum : Int → JSValue
  | vStr : String → JSValue
  | vObj : JSFields → JSValue
  | vFunc : Nat → JSValue
  deriving DecidableEq, Repr

/-- The ordered own-property list of a plain object. -/
inductive JSFields where
  | nil : JSFields
  | cons : String → JSValue → JSFields → JSFields
  deriving DecidableEq, Repr

end

open JSValue

/-- Look up a key in an object field list; `none` when absent. -/
def JSFields.lookup : JSFields → String → Option JSValue
  | .nil, _ => none
  | .cons k v rest, key => if k = key then some v else rest.lookup key

/-- The keys of the field list, in property order. -/
def JSFields.keys : JSFields → List String
  | .nil => []
  | .cons k _ rest => k :: rest.keys

/-- Property write on a field list: overwrite the key when present, append
it otherwise (JavaScript object assignment). -/
def JSFields.set : JSFields → String → JSValue → JSFields
  | .nil, key, v => .cons key v .nil
  | .cons k w rest, key, v =>
    if k = key then .cons k v rest else .cons k w (rest.set key v)

/-- The JavaScript `typeof` operator on the modelled values. -/
def jsTypeof : JSValue → String
  | vUndefined => "undefined"
  | vNull => "object"
  | vBool _ => "boolean"
  | vNum _ => "number"
  | vStr _ => "string"
  | vObj _ => "object"
  | vFunc _ => "function"

/-- JavaScript falsiness: `!x` is true exactly on these values (NaN is not
representable in this model). -/
def jsFalsy : JSValue → Bool
  | vUndefined => true
  | vNull => true
  | vBool b => !b
  | vNum n => n == 0
  | vStr s => s == ""
  | vObj _ => false
  | vFunc _ => false

/-- Property read `x[k]`: a missing key yields `undefined`, as does a read
on a primitive. (Reading a property of `null`/`undefined` throws in
JavaScript; no claim exercises that path.) -/
def jsGetField (x : JSValue) (k : String) : JSValue :=
  match x with
  | vObj fields => (fields.lookup k).getD vUndefined
  | _ => vUndefined

/-- JavaScript whitespace, restricted to the common characters. -/
def isJsSpace (c : Char) : Bool := c = ' ' ∨ c = '\t' ∨ c = '\n' ∨ c = '\r'

/-- JavaScript ToNumber on a string, restricted to integer literals:
an empty or all-whitespace string converts to 0, an optional sign followed
by decimal digits converts to that integer, and anything else is NaN
(`none`). Hex, fractional and exponent forms are outside the model. -/
def strToNum (s : String) : Option Int :=
  let t := ((s.data.dropWhile isJsSpace).reverse.dropWhile isJsSpace).reverse
  let digitsVal : List Char → Option Int := fun d =>
    if d ≠ [] ∧ d.all Char.isDigit then
      some (Int.ofNat (d.foldl (fun acc c => acc * 10 + (c.toNat - 48)) 0))
    else none
  match t with
  | [] => some 0
  | '-' :: rest => (digitsVal rest).map Int.neg
  | '+' :: rest => digitsVal rest
  | _ => digitsVal t

/-- JavaScript abstract (loose) equality `x == y` on the modelled values,
written out case by case (ECMA-262 Abstract Equality Comparison).
Booleans are converted to numbers first; a number or about-to-be-number
compared with a string goes through ToNumber of the string; a plain object
compared with a primitive goes through its default ToPrimitive, which for
a plain object without custom valueOf/toString is the string
"[object Object]". Two objects compare by identity in JavaScript, which
the structural model renders as structural equality; two functions
likewise compare by their identifier. A function compared with a primitive
would stringify its source text in JavaScript; the model returns false
there (no claim compares a function loosely with a primitive). -/
def jsLooseEq (x y : JSValue) : Bool :=
  let objStr := "[object Object]"
  let numVsStr : Int → String → Bool := fun n s =>
    match strToNum s with
    | some m => n == m
    | none => false
  let boolToNum : Bool → Int := fun b => if b then 1 else 0
  match x, y with
  | vUndefined, vUndefined => true
  | vNull, vNull => true
  | vUndefined, vNull => true
  | vNull, vUndefined => true
  | vNum a, vNum b => a == b
  | vStr a, vStr b => a == b
  | vBool a, vBool b => a == b
  | vObj fa, vObj fb => fa = fb
  | vFunc a, vFunc b => a == b
  | vNum a, vStr s => numVsStr a s
  | vStr s, vNum a => numVsStr a s
  | vBool a, vNum b => boolToNum a == b
  | vNum b, vBool a => boolToNum a == b
  | vBool a, vStr s => numVsStr (boolToNum a) s
  | vStr s, vBool a => numVsStr (boolToNum a) s
  | vBool a, vObj _ => numVsStr (boolToNum a) objStr
  | vObj _, vBool a => numVsStr (boolToNum a) objStr
  | vNum a, vObj _ => numVsStr a objStr
  | vObj _, vNum a => numVsStr a objStr
  | vStr s, vObj _ => s == objStr
  | vObj _, vStr s => s == objStr
  | _, _ => false

/-- The reducer contract: a function from (state, action) to state, which
may throw (`Except.error`). Pure reducers always return `Except.ok`. -/
def Reducer := JSValue → JSValue → Except String JSValue

/-- The closure state of one store created by `createStore`:
`currentState`, `currentListeners`, `nextListeners`, and `sameArr`, the
truth value of the pointer test `nextListeners === currentListeners`.
Once the two lists are distinct arrays they never become the same array
again except through the assignment in dispatch, so this boolean together
with the two lists captures the aliasing the source relies on. -/
structure StoreSt where
  currentState : JSValue
  currentListeners : List Nat
  nextListeners : List Nat
  sameArr : Bool
  deriving DecidableEq, Repr

/-- A store world: the store closure state, the per-subscription closures
created by `subscribe` (each holds the captured listener reference and its
mutable `isSubscribed` flag, indexed by creation order), and a log of the
listeners invoked so far (the observation of "listener L was called"). -/
structure World where
  store : StoreSt
  subs : List (Nat × Bool)
  firedLog : List Nat
  deriving DecidableEq, Repr

/-- src/crudeRedux.js lines 36-40: clone `nextListeners` (a copy of
`currentListeners`) when it is still the same array as
`currentListeners`. In the model the clone keeps the list value and only
drops the aliasing. -/
def ensureCanMutateNextListeners (s : StoreSt) : StoreSt :=
  if s.sameArr then { s with nextListeners := s.currentListeners, sameArr := false }
  else s

/-- `Array.prototype.indexOf`: index of the first occurrence, or -1. -/
def jsIndexOf : List Nat → Nat → Int
  | [], _ => -1
  | x :: xs, l =>
    if x = l then 0
    else
      let r := jsIndexOf xs l
      if r < 0 then -1 else r + 1

/-- `Array.prototype.splice(start, 1)`: remove one element at `start`,
where a negative `start` counts from the end (so `splice(-1, 1)` removes
the last element) and a `start` beyond the length removes nothing. -/
def jsSplice1 (xs : List Nat) (start : Int) : List Nat :=
  let len := xs.length
  let actual : Nat := if start < 0 then (start + len).toNat else min start.toNat len
  xs.take actual ++ xs.drop (actual + 1)

/-- What a listener body does when invoked. The claims only need listener
bodies that either do nothing or call one previously returned unsubscribe
closure, identified by its creation index. -/
inductive LBody where
  | doNothing : LBody
  | callUnsub : Nat → LBody
  deriving DecidableEq, Repr

/-- src/crudeRedux.js lines 64-72: `subscribe(listener)` registers the
listener into the mutable `nextListeners` view (cloning first when it is
the same array as `currentListeners`) and creates an unsubscribe closure
with its `isSubscribed` flag set. Listeners are modelled as identifiers,
so the `typeof listener` validation path is always passed. -/
def subscribe (listener : Nat) (w : World) : World :=
  let st := ensureCanMutateNextListeners w.store
  let st := { st with nextListeners := st.nextListeners ++ [listener] }
  { w with store := st, subs := w.subs ++ [(listener, true)] }

/-- src/crudeRedux.js lines 74-81: the unsubscribe closure of subscription
`i`. A second call finds `isSubscribed` false and returns at once;
otherwise it clears the flag, clones `nextListeners` if needed, and
splices out the captured listener at its `indexOf` position. -/
def unsubscribe (i : Nat) (w : World) : World :=
  match w.subs.get? i with
  | none => w
  | some (listener, isSubscribed) =>
    if !isSubscribed then w
    else
      let subs := w.subs.set i (listener, false)
      let st := ensureCanMutateNextListeners w.store
      let index := jsIndexOf st.nextListeners listener
      let st := { st with nextListeners := jsSplice1 st.nextListeners index }
      { w with store := st, subs := subs }

/-- Invoke one listener: record the call, then run its body. -/
def runListener (env : Nat → LBody) (w : World) (listener : Nat) : World :=
  let w := { w with firedLog := w.firedLog ++ [listener] }
  match env listener with
  | .doNothing => w
  | .callUnsub i => unsubscribe i w

/-- src/crudeRedux.js lines 44-62: `dispatch(action)`. Validation first
(`!action || typeof action !== 'object'`, then a missing `type`), then the
reducer runs and its result replaces the state; a thrown reducer error
propagates before the state assignment and before any listener runs. On
success `currentListeners = nextListeners` is captured (the two become the
same array) and every captured listener is invoked in order; the original
action is returned. The capture list is safe to fold over because every
registry mutation clones before writing. -/
def dispatch (reducer : Reducer) (env : Nat → LBody) (action : JSValue) (w : World) :
    World × Except String JSValue :=
  if jsFalsy action || jsTypeof action != "object" then
    (w, .error "Expected the action to be a object.")
  else if jsTypeof (jsGetField action "type") == "undefined" then
    (w, .error "Actions may not have \"type\" property.")
  else
    match reducer w.store.currentState action with
    | .error e => (w, .error e)
    | .ok nextState =>
      let st := { w.store with currentState := nextState }
      let st := { st with currentListeners := st.nextListeners, sameArr := true }
      let listeners := st.currentListeners
      let w := { w with store := st }
      (listeners.foldl (runListener env) w, .ok action)

/-- The reserved bootstrap action dispatched on construction and on
reducer replacement (src/crudeRedux.js lines 90 and 95). -/
def initAction : JSValue := vObj (.cons "type" (vStr "@@redux_init") .nil)

/-- `getState()`: return the current state. -/
def getState (w : World) : JSValue := w.store.currentState

/-- src/crudeRedux.js lines 8-98, no-enhancer path: `createStore(reducer,
preloadedState = {})`. An absent argument is `undefined`, which the
default parameter replaces with a fresh empty object; the registry starts
with `nextListeners = currentListeners = []` (the same array), and the
bootstrap action is dispatched once to seed the state. The enhancer
delegation path (lines 19-25) is modelled separately at the dispatch level
by `applyMiddlewareDispatch` below. -/
def createStore (reducer : Reducer) (preloadedStateArg : JSValue) : World :=
  let preloadedState := if preloadedStateArg = vUndefined then vObj .nil else preloadedStateArg
  let w : World :=
    { store :=
        { currentState := preloadedState
          currentListeners := []
          nextListeners := []
          sameArr := true }
      subs := []
      firedLog := [] }
  (dispatch reducer (fun _ => .doNothing) initAction w).1

/-- An entry of the mapping given to `combineReducers`: either a callable
sub-reducer or some non-callable value (which the source skips after its
`typeof` test). Sub-reducers here are total functions; no claim about
`combineReducers` involves a throwing sub-reducer. -/
inductive RedEntry where
  | callable : (JSValue → JSValue → JSValue) → RedEntry
  | notCallable : JSValue → RedEntry

/-- The result of the combined reducer, keeping JavaScript object identity
observable: either the very `state` object that was passed in
(`hasChange` false), or a freshly allocated object with the given
fields. -/
inductive CombineResult where
  | sameRef : CombineResult
  | newObj : JSFields → CombineResult
  deriving DecidableEq, Repr

/-- src/crudeRedux.js lines 145-166: `combineReducers(reducers)` returns
`combination(state = {}, action)`. For each key (in property order) whose
entry is callable, the sub-reducer is applied to `state[key]`, its result
is written into a fresh `nextState`, and `hasChange` is or-ed with the
loose inequality `nextStateForKey != previousStateForKey`. The original
`state` reference is returned when `hasChange` stayed false, the fresh
object otherwise. -/
def combination (finalReducers : List (String × RedEntry)) (stateArg : JSValue)
    (action : JSValue) : CombineResult :=
  let state := if stateArg = vUndefined then vObj .nil else stateArg
  let step : (JSFields × Bool) → (String × RedEntry) → (JSFields × Bool) :=
    fun acc entry =>
      let previousStateForKey := jsGetField state entry.1
      match entry.2 with
      | .callable f =>
        let nextStateForKey := f previousStateForKey action
        (acc.1.set entry.1 nextStateForKey,
         acc.2 || !(jsLooseEq nextStateForKey previousStateForKey))
      | .notCallable _ => acc
  let r := finalReducers.foldl step (JSFields.nil, false)
  if r.2 then .newObj r.1 else .sameRef

/-- The reducer returned by `combineReducers` (the `Object.assign` shallow
copy of the mapping keeps the same entries, so it is the identity in the
value model). -/
def combineReducers (reducers : List (String × RedEntry)) :
    JSValue → JSValue → CombineResult :=
  combination reducers

/-- An action creator: a variadic function from arguments to an action. -/
abbrev ActionCreator := List JSValue → JSValue

/-- An entry of the mapping given to `bindActionCreators`. -/
inductive ACEntry where
  | callable : ActionCreator → ACEntry
  | notCallable : JSValue → ACEntry

/-- The argument of `bindActionCreators`: a single callable or a keyed
mapping. The throwing branch for other arguments (line 122) is not
exercised by any claim and is left out of the input type. -/
inductive ACInput where
  | func : ActionCreator → ACInput
  | obj : List (String × ACEntry) → ACInput

/-- What `bindActionCreators` returns: a single bound callable or an
object of bound callables. -/
inductive BoundOutput where
  | fn : (List JSValue → JSValue) → BoundOutput
  | obj : List (String × (List JSValue → JSValue)) → BoundOutput

/-- src/crudeRedux.js lines 106-108: wrap one action creator so that its
result is dispatched immediately; the dispatch result is returned. -/
def bindActionCreator (actionCreator : ActionCreator)
    (dispatchFn : JSValue → JSValue) : List JSValue → JSValue :=
  fun args => dispatchFn (actionCreator args)

/-- Property write on an object of functions, JavaScript semantics
(overwrite when present, append otherwise). -/
def setBoundField (fields : List (String × (List JSValue → JSValue)))
    (k : String) (v : List JSValue → JSValue) :
    List (String × (List JSValue → JSValue)) :=
  if fields.any (fun p => p.1 == k) then
    fields.map (fun p => if p.1 == k then (k, v) else p)
  else
    fields ++ [(k, v)]

/-- src/crudeRedux.js lines 116-136: `bindActionCreators`. A callable is
wrapped directly. For a mapping, the loop reads each entry by its key but
writes the wrapper under `boundActionCreators[keys]` — the property key is
the WHOLE key array, which JavaScript stringifies to the keys joined by
commas — so every callable entry is written to that one comma-joined key,
each write overwriting the previous one. The model reproduces this
faithfully (it is a bug in the source; see the C5 theorem). -/
def bindActionCreators (actionCreators : ACInput)
    (dispatchFn : JSValue → JSValue) : BoundOutput :=
  match actionCreators with
  | .func f => .fn (bindActionCreator f dispatchFn)
  | .obj entries =>
    let keys := entries.map Prod.fst
    let arrayKey := String.intercalate "," keys
    let step : List (String × (List JSValue → JSValue)) → (String × ACEntry) →
        List (String × (List JSValue → JSValue)) :=
      fun bound entry =>
        match entry.2 with
        | .callable f => setBoundField bound arrayKey (bindActionCreator f dispatchFn)
        | .notCallable _ => bound
    .obj (entries.foldl step [])

/-- Read a bound entry out of a `BoundOutput` object and apply it;
`undefined` when the key is absent. -/
def boundApply (o : BoundOutput) (k : String) (args : List JSValue) : JSValue :=
  match o with
  | .fn f => f args
  | .obj entries =>
    match entries.find? (fun p => p.1 == k) with
    | some p => p.2 args
    | none => vUndefined

/-- The keys of a `BoundOutput` object. -/
def boundKeys : BoundOutput → List String
  | .fn _ => []
  | .obj entries => entries.map Prod.fst

/-- src/crudeRedux.js lines 173-182: `compose(...funcs)`. No functions
gives the identity, one function is returned as-is, and two or more are
chained with `funcs.reduce((a, b) => (...args) => a(b(...args)))`, which
folds from the left starting at the first function. -/
def compose {α : Type} (funcs : List (α → α)) : α → α :=
  match funcs with
  | [] => fun args => args
  | [f] => f
  | f :: rest => rest.foldl (fun a b => fun args => a (b args)) f

/-- The type of a dispatch function over store-world type `σ`: it takes an
action, has an effect on the world, and returns the (possibly thrown)
result. -/
abbrev Disp (σ : Type) := JSValue → σ → σ × Except String JSValue

/-- The middleware API object handed to each middleware factory. The
source gives it `getState` and a late-bound `dispatch` read through a
mutable local variable (src/crudeRedux.js lines 197-201); no claim has a
middleware call that `dispatch` member, so the model carries `getState`
only. -/
abbrev MWAPI (σ : Type) := σ → JSValue

/-- A middleware factory: given the API object it produces a dispatch
transformer `(next) => (action) => ...`. -/
abbrev Middleware (σ : Type) := MWAPI σ → Disp σ → Disp σ

/-- src/crudeRedux.js lines 203-204, the heart of `applyMiddleware`: each
middleware factory is applied once to the API object, and the resulting
chain is composed (right-to-left) around the base store dispatch. -/
def applyMiddlewareDispatch {σ : Type} (middlewares : List (Middleware σ))
    (api : MWAPI σ) (base : Disp σ) : Disp σ :=
  let chain := middlewares.map (fun middleware => middleware api)
  compose chain base

/-- A middleware of the standard pass-through shape (the shape of the
demo printStateMiddleware in src/index.js): an effect before handing the
action to `next`, an effect after `next` returns, and `next`'s return
value passed through unchanged. -/
structure PassThroughMW (σ : Type) where
  before : σ → σ
  after : σ → σ

/-- Render a pass-through middleware as a middleware factory, mirroring
the demo middleware body: run the before effect, call `next(action)`
keeping its return value, run the after effect, return that value. -/
def PassThroughMW.toMiddleware {σ : Type} (m : PassThroughMW σ) : Middleware σ :=
  fun _api next => fun action s =>
    let s1 := m.before s
    let p := next action s1
    (m.after p.1, p.2)

/-- A store world paired with a console log, to observe the order of
middleware effects. -/
structure ConsoleWorld where
  w : World
  console : List String
  deriving Repr

/-- The base store dispatch lifted to `ConsoleWorld` (the store engine
itself never writes to the console). -/
def baseDispatchC (r : Reducer) (env : Nat → LBody) : Disp ConsoleWorld :=
  fun action s =>
    let p := dispatch r env action s.w
    ({ s with w := p.1 }, p.2)

/-- A pass-through middleware that logs a tagged line before and after. -/
def logMW (tag : String) : PassThroughMW ConsoleWorld :=
  { before := fun s => { s with console := s.console ++ [tag ++ " before"] }
    after := fun s => { s with console := s.console ++ [tag ++ " after"] } }

/-- Unfolding of the source `reduce` chain: applying the fold of the
composition step to an argument composes right-to-left. -/
theorem foldl_comp_apply {α : Type} (t : List (α → α)) (f : α → α) (x : α) :
    (t.foldl (fun a b => fun args => a (b args)) f) x = f (compose t x) := by
  induction t generalizing f with
  | nil => rfl
  | cons g t2 ih =>
    have h2 : compose (g :: t2) x = g (compose t2 x) := by
      cases t2 with
      | nil => rfl
      | cons h t3 => exact ih g
    calc ((g :: t2).foldl (fun a b => fun args => a (b args)) f) x
        = (t2.foldl (fun a b => fun args => a (b args)) (fun args => f (g args))) x := rfl
      _ = (fun args => f (g args)) (compose t2 x) := ih _
      _ = f (g (compose t2 x)) := rfl
      _ = f (compose (g :: t2) x) := by rw [h2]

/-- `compose` peels its first function off the left. -/
theorem compose_cons {α : Type} (f : α → α) (l : List (α → α)) (x : α) :
    compose (f :: l) x = f (compose l x) := by
  cases l with
  | nil => rfl
  | cons g t => exact foldl_comp_apply (g :: t) f x

/-- The middleware chain peels its first middleware off the left: the
first listed middleware is the outermost wrapper. -/
theorem applyMiddlewareDispatch_cons {σ : Type} (m : Middleware σ)
    (mws : List (Middleware σ)) (api : MWAPI σ) (base : Disp σ) :
    applyMiddlewareDispatch (m :: mws) api base
      = m api (applyMiddlewareDispatch mws api base) := by
  unfold applyMiddlewareDispatch
  exact compose_cons (m api) (mws.map (fun middleware => middleware api)) base

/-- A reducer that returns the state unchanged and never throws. -/
def okReducer : Reducer := fun s _ => .ok s

/-- A reducer that throws on every action. -/
def throwReducer : Reducer := fun _ _ => .error "boom"

/-- A reducer that can tell an absent (`undefined`) state from any other
state, to probe how the store seeds its initial state. -/
def probeReducer : Reducer := fun s _ => .ok (if s = vUndefined then vStr "default" else s)

/-- A plain valid action. -/
def sampleAction : JSValue := vObj (.cons "type" (vStr "X") .nil)

/-- A listener environment in which every listener body does nothing. -/
def envNop : Nat → LBody := fun _ => .doNothing

/-- The listener environment of the C1 scenario: listener `a` (the first
subscribed) calls the unsubscribe closure of the second subscription;
every other listener does nothing. -/
def scenarioEnv (a : Nat) : Nat → LBody := fun l => if l = a then .callUnsub 1 else .doNothing

/-- The C1 scenario store: a fresh store with listeners `a`, `b`, `c`
subscribed in that order. -/
def c1World (a b c : Nat) : World :=
  subscribe c (subscribe b (subscribe a (createStore okReducer (vObj .nil))))

/-- One dispatch of the C1 scenario. -/
def dispatchStep (a : Nat) (w : World) : World :=
  (dispatch okReducer (scenarioEnv a) sampleAction w).1

/-- Claim C8: `compose` applied to zero functions is the identity on its
argument, applied to one function behaves as that function, and applied
to several composes right-to-left: `compose(f, g, h)(x) = f(g(h(x)))`. -/
theorem compose_spec {α : Type} (f g h : α → α) (x : α) :
    compose ([] : List (α → α)) x = x ∧
    compose [f] x = f x ∧
    compose [f, g, h] x = f (g (h x)) :=
  ⟨rfl, rfl, rfl⟩

/-- Claim C7: with `applyMiddleware(mw1, mw2)`, a dispatched action passes
through mw1's wrapper before mw2's, and the after-effects run in reverse
order, LIFO around the base store dispatch: the world passes through
`m1.before`, then `m2.before`, then the base dispatch, then `m2.after`,
then `m1.after`, and concretely two logging middlewares produce the lines
mw1 before, mw2 before, mw2 after, mw1 after. -/
theorem applyMiddleware_order (m1 m2 : PassThroughMW ConsoleWorld) (r : Reducer)
    (env : Nat → LBody) (api : MWAPI ConsoleWorld) (a : JSValue) (s : ConsoleWorld) :
    (applyMiddlewareDispatch [m1.toMiddleware, m2.toMiddleware] api
        (baseDispatchC r env) a s
      = (m1.after (m2.after (baseDispatchC r env a (m2.before (m1.before s))).1),
         (baseDispatchC r env a (m2.before (m1.before s))).2)) ∧
    ((applyMiddlewareDispatch [(logMW "mw1").toMiddleware, (logMW "mw2").toMiddleware]
        (fun cs => getState cs.w) (baseDispatchC okReducer envNop) sampleAction
        ⟨createStore okReducer (vObj .nil), []⟩).1).console
      = ["mw1 before", "mw2 before", "mw2 after", "mw1 after"] :=
  ⟨rfl, rfl⟩

/-- Claim C9: the unsubscribe closure is idempotent — calling it a second
(or any later) time is a no-op, so the world after the second call equals
the world after the first. (The closure has no error path in the source:
it either returns early or splices.) -/
theorem unsubscribe_idempotent (w : World) (i : Nat) :
    unsubscribe i (unsubscribe i w) = unsubscribe i w := by
  rcases h : w.subs[i]? with _ | ⟨l, flag⟩
  · simp [unsubscribe, h]
  · cases flag with
    | false => simp [unsubscribe, h]
    | true =>
      have hlen : i < w.subs.length := by
        have h2 := List.getElem?_eq_some.mp h
        exact h2.choose
      have hset : (w.subs.set i (l, false))[i]? = some (l, false) :=
        List.getElem?_set_eq_of_lt (l, false) hlen
      simp [unsubscribe, h, hset]

/-- Claim C2: dispatching `null`, a non-object value, or an object without
a `type` field fails synchronously with the validation error and leaves
the world untouched: the result does not depend on the reducer or on the
listener bodies (so neither runs), the world is returned unchanged, and
the second component is an error. -/
theorem dispatch_invalid_action (w : World) (a : JSValue)
    (hbad : a = vNull ∨ jsTypeof a ≠ "object" ∨ jsTypeof (jsGetField a "type") = "undefined") :
    ∀ (r r' : Reducer) (env env' : Nat → LBody),
      dispatch r env a w = dispatch r' env' a w ∧
      (dispatch r env a w).1 = w ∧
      ∃ msg, (dispatch r env a w).2 = Except.error msg := by
  intro r r' env env'
  by_cases h1 : (jsFalsy a || jsTypeof a != "object") = true
  · refine ⟨?_, ?_, "Expected the action to be a object.", ?_⟩ <;> simp [dispatch, h1]
  · have h1f : jsFalsy a = false ∧ jsTypeof a = "object" := by
      rcases Bool.or_eq_false_iff.mp (Bool.eq_false_iff.mpr h1) with ⟨hf, ht⟩
      exact ⟨hf, by simpa using ht⟩
    have h2 : jsTypeof (jsGetField a "type") = "undefined" := by
      rcases hbad with hnull | hty | hmiss
      · subst hnull; simp [jsFalsy] at h1f
      · exact absurd h1f.2 hty
      · exact hmiss
    refine ⟨?_, ?_, "Actions may not have \"type\" property.", ?_⟩ <;>
      simp [dispatch, h1, h2]

/-- Claim C10: when the reducer throws on `(state, action)` for a valid
action, `dispatch` propagates exactly that error, the whole world — state,
registry and invocation log — is unchanged, and no listener is invoked. -/
theorem dispatch_reducer_throws (r : Reducer) (env : Nat → LBody) (w : World)
    (a : JSValue) (e : String)
    (h1 : jsFalsy a = false) (h2 : jsTypeof a = "object")
    (h3 : jsTypeof (jsGetField a "type") ≠ "undefined")
    (hr : r w.store.currentState a = Except.error e) :
    dispatch r env a w = (w, Except.error e) := by
  simp [dispatch, h1, h2, h3, hr]

/-- Claim C3 counterexample: the claim says a store built with no
preloaded state seeds `getState()` with `reducer(undefined, bootstrap)`.
For a reducer that answers "default" on an `undefined` state, the code
instead seeds the empty-object default parameter, so `getState()` is `{}`
and not "default". -/
theorem createStore_seed_counterexample :
    probeReducer vUndefined initAction = Except.ok (vStr "default") ∧
    getState (createStore probeReducer vUndefined) = vObj .nil ∧
    getState (createStore probeReducer vUndefined) ≠ vStr "default" := by
  refine ⟨rfl, rfl, ?_⟩
  decide

/-- Claim C3, amended: a store built with no preloaded state (an absent
argument is `undefined`, which the default parameter turns into a fresh
empty object) yields `getState()` equal to
`reducer({}, {type: "@@redux_init"})`. -/
theorem createStore_seed (r : Reducer) (ns : JSValue)
    (h : r (vObj .nil) initAction = Except.ok ns) :
    getState (createStore r vUndefined) = ns := by
  have h2 : r (vObj JSFields.nil) (vObj (JSFields.cons "type" (vStr "@@redux_init")
      JSFields.nil)) = Except.ok ns := h
  simp [createStore, dispatch, getState, initAction, jsFalsy, jsTypeof, jsGetField,
    JSFields.lookup, h2]

/-- A sub-reducer that always returns the empty string. -/
def raEmptyStr : JSValue → JSValue → JSValue := fun _ _ => vStr ""

/-- A sub-reducer that returns its slice of state unchanged. -/
def rbIdent : JSValue → JSValue → JSValue := fun prev _ => prev

/-- A two-key state for the combineReducers claims. -/
def c4State : JSValue := vObj (.cons "a" (vNum 0) (.cons "b" (vNum 5) .nil))

/-- Claim C4 counterexample: the claim says the combined reducer returns
the original `state` reference only when every key's result is identical
(reference/identity, not loose equality) to its previous value, and a new
object otherwise. Here `ra` turns `state.a = 0` into `""` — a different
value and a different identity — yet the combined reducer still returns
the same `state` reference, because the source compares with loose `!=`
and `0 == ""` holds in JavaScript. -/
theorem combineReducers_identity_counterexample :
    combineReducers [("a", .callable raEmptyStr), ("b", .callable rbIdent)]
        c4State sampleAction = CombineResult.sameRef ∧
    raEmptyStr (jsGetField c4State "a") sampleAction ≠ jsGetField c4State "a" := by
  exact ⟨by decide, by decide⟩

/-- Claim C4, amended: `combineReducers({a: ra, b: rb})(state, action)`
returns the same object reference as `state` exactly when, for every key,
the sub-reducer's result is LOOSELY equal (JavaScript `==`, not identity)
to the previous per-key value; otherwise it returns a new object whose
fields are `a = ra(state.a, action)` and `b = rb(state.b, action)`. -/
theorem combineReducers_identity (ra rb : JSValue → JSValue → JSValue)
    (state action : JSValue) (hs : state ≠ vUndefined) :
    combineReducers [("a", .callable ra), ("b", .callable rb)] state action =
      (if jsLooseEq (ra (jsGetField state "a") action) (jsGetField state "a") &&
          jsLooseEq (rb (jsGetField state "b") action) (jsGetField state "b") then
        CombineResult.sameRef
      else
        CombineResult.newObj (.cons "a" (ra (jsGetField state "a") action)
          (.cons "b" (rb (jsGetField state "b") action) .nil))) := by
  simp only [combineReducers, combination, List.foldl, hs, if_neg, JSFields.set]
  rcases hla : jsLooseEq (ra (jsGetField state "a") action) (jsGetField state "a") <;>
    rcases hlb : jsLooseEq (rb (jsGetField state "b") action) (jsGetField state "b") <;>
      simp [hs, hla, hlb, JSFields.set]

/-- An action creator producing an INC action. -/
def incCreator : ActionCreator := fun _ => vObj (.cons "type" (vStr "INC") .nil)

/-- An action creator producing a DEC action. -/
def decCreator : ActionCreator := fun _ => vObj (.cons "type" (vStr "DEC") .nil)

/-- Claim C5 (code bug): for the mapping with callable entries at keys
"inc" and "dec", the claim expects an output mapping with those same keys,
each forwarding to its own creator. The code instead writes every wrapper
under the single property named by the WHOLE key array — the string
"inc,dec" — so the output has exactly that one key, the claimed keys are
absent (reading them gives `undefined`), and the surviving entry forwards
to the LAST callable creator (dec). -/
theorem bindActionCreators_key_bug :
    boundKeys (bindActionCreators
        (.obj [("inc", .callable incCreator), ("dec", .callable decCreator)]) id)
      = ["inc,dec"] ∧
    (["inc,dec"] : List String) ≠ ["inc", "dec"] ∧
    boundApply (bindActionCreators
        (.obj [("inc", .callable incCreator), ("dec", .callable decCreator)]) id)
      "inc,dec" [] = vObj (.cons "type" (vStr "DEC") .nil) ∧
    boundApply (bindActionCreators
        (.obj [("inc", .callable incCreator), ("dec", .callable decCreator)]) id)
      "inc" [] = vUndefined := by
  exact ⟨by decide, by decide, by decide, by decide⟩

/-- Claim C6: for every valid action and any number of wrapping
middlewares of the standard pass-through shape, `dispatch(action)` returns
the action itself. The base dispatch returns its `action` argument
(line 61 of the source), and a standard-shape middleware returns the value
`next(action)` produced, so the composed dispatch still returns the
action, from any store world, provided the reducer does not throw on the
action. -/
theorem dispatch_returns_action (mws : List (PassThroughMW World)) (api : MWAPI World)
    (r : Reducer) (env : Nat → LBody) (a : JSValue) (w : World)
    (h1 : jsFalsy a = false) (h2 : jsTypeof a = "object")
    (h3 : jsTypeof (jsGetField a "type") ≠ "undefined")
    (hr : ∀ st, ∃ ns, r st a = Except.ok ns) :
    (applyMiddlewareDispatch (mws.map PassThroughMW.toMiddleware) api
        (dispatch r env) a w).2 = Except.ok a := by
  induction mws generalizing w with
  | nil =>
    obtain ⟨ns, hns⟩ := hr w.store.currentState
    simp [applyMiddlewareDispatch, compose, dispatch, h1, h2, h3, hns]
  | cons m mws ih =>
    rw [List.map_cons, applyMiddlewareDispatch_cons]
    exact ih (m.before w)

/-- The world after constructing the C1 store and subscribing a, b, c:
the first subscription clones the (empty) listener array, so
`nextListeners` holds the three listeners while `currentListeners` is
still the empty snapshot, and the three unsubscribe closures are live. -/
theorem c1World_eq (a b c : Nat) :
    c1World a b c =
      ⟨⟨vObj .nil, [], [a, b, c], false⟩,
       [(a, true), (b, true), (c, true)], []⟩ := by
  simp +decide [c1World, createStore, dispatch, subscribe, ensureCanMutateNextListeners,
    runListener, initAction, jsFalsy, jsTypeof, jsGetField, JSFields.lookup, okReducer]

/-- The first C1 dispatch: the snapshot [a, b, c] is captured, listener a
unsubscribes b (which clones the array and removes b from `nextListeners`
only), and all of a, b, c still fire in this pass. -/
theorem c1_first_dispatch (a b c : Nat) (hab : a ≠ b) (hba : b ≠ a) (hca : c ≠ a) :
    dispatchStep a (c1World a b c) =
      ⟨⟨vObj .nil, [a, b, c], [a, c], false⟩,
       [(a, true), (b, false), (c, true)], [a, b, c]⟩ := by
  rw [c1World_eq]
  simp +decide [dispatchStep, dispatch, runListener, scenarioEnv, unsubscribe,
    ensureCanMutateNextListeners, jsIndexOf, jsSplice1, jsFalsy, jsTypeof, jsGetField,
    JSFields.lookup, sampleAction, okReducer, hab, hba, hca]

/-- Every later C1 dispatch: once subscription 1 is marked unsubscribed
and `nextListeners` is [a, c], a dispatch captures [a, c], fires exactly a
and c (a's body finds `isSubscribed` false and does nothing), and leaves
the registry in the same fixed shape. -/
theorem c1_later_dispatch (a b c : Nat) (hca : c ≠ a) (cur : List Nat) (sm : Bool)
    (log : List Nat) :
    dispatchStep a ⟨⟨vObj .nil, cur, [a, c], sm⟩, [(a, true), (b, false), (c, true)], log⟩ =
      ⟨⟨vObj .nil, [a, c], [a, c], true⟩, [(a, true), (b, false), (c, true)], log ++ [a, c]⟩ := by
  simp +decide [dispatchStep, dispatch, runListener, scenarioEnv, unsubscribe,
    ensureCanMutateNextListeners, jsFalsy, jsTypeof, jsGetField,
    JSFields.lookup, sampleAction, okReducer, hca]

/-- Iterating dispatches from the post-first-pass shape appends [a, c] to
the invocation log once per dispatch. -/
theorem c1_iterate (a b c : Nat) (hca : c ≠ a) :
    ∀ (k : Nat) (cur : List Nat) (sm : Bool) (log : List Nat),
    (dispatchStep a)^[k + 1]
        ⟨⟨vObj .nil, cur, [a, c], sm⟩, [(a, true), (b, false), (c, true)], log⟩ =
      ⟨⟨vObj .nil, [a, c], [a, c], true⟩, [(a, true), (b, false), (c, true)],
       log ++ (List.replicate (k + 1) [a, c]).flatten⟩ := by
  intro k
  induction k with
  | zero =>
    intro cur sm log
    simp [Function.iterate_one, c1_later_dispatch a b c hca]
  | succ k ih =>
    intro cur sm log
    rw [Function.iterate_succ_apply, c1_later_dispatch a b c hca, ih]
    simp [List.replicate_succ, List.append_assoc]

/-- Claim C1: subscribe a, b, c in that order, with a's body calling b's
unsubscribe closure. The first dispatch fires a, b and c (unsubscribing
during the in-progress pass does not change that pass), and every
subsequent dispatch fires exactly a and c: the log after 1 + k dispatches
is [a, b, c] followed by k copies of [a, c]. -/
theorem listener_snapshot_isolation (a b c : Nat) (hab : a ≠ b) (hac : a ≠ c)
    (hbc : b ≠ c) :
    (dispatchStep a (c1World a b c)).firedLog = [a, b, c] ∧
    ∀ k : Nat, ((dispatchStep a)^[k + 1] (c1World a b c)).firedLog
        = [a, b, c] ++ (List.replicate k [a, c]).flatten := by
  have hba : b ≠ a := Ne.symm hab
  have hca : c ≠ a := Ne.symm hac
  have hfirst := c1_first_dispatch a b c hab hba hca
  refine ⟨by rw [hfirst], ?_⟩
  intro k
  cases k with
  | zero => simp [Function.iterate_one, hfirst]
  | succ k =>
    rw [Function.iterate_succ_apply, show dispatchStep a (c1World a b c) = _ from hfirst,
      c1_iterate a b c hca k]

/-- A pass-through middleware with no effects, for concrete instances. -/
def mwNop : PassThroughMW World := ⟨id, id⟩

/-- Witness for C1 at the concrete listeners 1, 2, 3. -/
theorem listener_snapshot_isolation_witness :
    (1 : Nat) ≠ 2 ∧ (1 : Nat) ≠ 3 ∧ (2 : Nat) ≠ 3 ∧
    ((dispatchStep 1 (c1World 1 2 3)).firedLog = [1, 2, 3] ∧
     ∀ k : Nat, ((dispatchStep 1)^[k + 1] (c1World 1 2 3)).firedLog
        = [1, 2, 3] ++ (List.replicate k [1, 3]).flatten) :=
  ⟨by decide, by decide, by decide,
   listener_snapshot_isolation 1 2 3 (by decide) (by decide) (by decide)⟩

/-- Witness for C2 at the concrete invalid action `null` on a fresh
store, with two different reducers and listener environments. -/
theorem dispatch_invalid_action_witness :
    (vNull = vNull ∨ jsTypeof vNull ≠ "object" ∨
      jsTypeof (jsGetField vNull "type") = "undefined") ∧
    (dispatch okReducer envNop vNull (createStore okReducer (vObj .nil))
        = dispatch throwReducer envNop vNull (createStore okReducer (vObj .nil)) ∧
     (dispatch okReducer envNop vNull (createStore okReducer (vObj .nil))).1
        = createStore okReducer (vObj .nil) ∧
     ∃ msg, (dispatch okReducer envNop vNull
        (createStore okReducer (vObj .nil))).2 = Except.error msg) :=
  ⟨Or.inl rfl,
   dispatch_invalid_action (createStore okReducer (vObj .nil)) vNull (Or.inl rfl)
     okReducer throwReducer envNop envNop⟩

/-- Witness for the amended C3 at the probing reducer: the seeded state is
the empty-object default run through the reducer. -/
theorem createStore_seed_witness :
    probeReducer (vObj .nil) initAction = Except.ok (vObj .nil) ∧
    getState (createStore probeReducer vUndefined) = vObj .nil :=
  ⟨rfl, createStore_seed probeReducer (vObj .nil) rfl⟩

/-- Witness for the amended C4 at the counterexample state: both results
are loosely equal to the previous values, so the original reference comes
back. -/
theorem combineReducers_identity_witness :
    c4State ≠ vUndefined ∧
    combineReducers [("a", .callable raEmptyStr), ("b", .callable rbIdent)]
        c4State sampleAction =
      (if jsLooseEq (raEmptyStr (jsGetField c4State "a") sampleAction)
            (jsGetField c4State "a") &&
          jsLooseEq (rbIdent (jsGetField c4State "b") sampleAction)
            (jsGetField c4State "b") then
        CombineResult.sameRef
      else
        CombineResult.newObj (.cons "a" (raEmptyStr (jsGetField c4State "a") sampleAction)
          (.cons "b" (rbIdent (jsGetField c4State "b") sampleAction) .nil))) :=
  ⟨by decide,
   combineReducers_identity raEmptyStr rbIdent c4State sampleAction (by decide)⟩

/-- Witness for C6 with two no-op pass-through middlewares around a fresh
store and a plain valid action. -/
theorem dispatch_returns_action_witness :
    jsFalsy sampleAction = false ∧
    (applyMiddlewareDispatch ([mwNop, mwNop].map PassThroughMW.toMiddleware) getState
        (dispatch okReducer envNop) sampleAction
        (createStore okReducer (vObj .nil))).2 = Except.ok sampleAction :=
  ⟨rfl,
   dispatch_returns_action [mwNop, mwNop] getState okReducer envNop sampleAction
     (createStore okReducer (vObj .nil)) rfl rfl (by decide) (fun st => ⟨st, rfl⟩)⟩

/-- Witness for C10 at a reducer that always throws. -/
theorem dispatch_reducer_throws_witness :
    throwReducer (createStore okReducer (vObj .nil)).store.currentState sampleAction
        = Except.error "boom" ∧
    dispatch throwReducer envNop sampleAction (createStore okReducer (vObj .nil))
        = (createStore okReducer (vObj .nil), Except.error "boom") :=
  ⟨rfl,
   dispatch_reducer_throws throwReducer envNop (createStore okReducer (vObj .nil))
     sampleAction "boom" rfl rfl (by decide) rfl⟩
